import Mathlib

/-!
Verification of the remorph snow dialect-extension layer
(`snow/databricks.py`, `snow/snowflake.py`, `snow/presto.py`)
against its natural-language specification.

The Python code is shallowly embedded: pure rendering helpers become Lean
functions over strings and small AST records, fallible builders return
`Except`, and the keyword trie becomes an association-list trie.
-/

set_option maxHeartbeats 1000000

namespace Remorph

/-! ## String infrastructure

Executable substring machinery used to state the containment claims of the
spec (`contains MERGE`, `ends with ...`, error-message windows). -/

/-- Boolean test: `n` is a prefix of `h` (lists of characters). -/
def isPfx : List Char → List Char → Bool
  | [], _ => true
  | _ :: _, [] => false
  | a :: n, b :: h => a == b && isPfx n h

/-- Boolean test: `n` occurs as a contiguous sublist of `h`. -/
def listHasSub (n : List Char) : List Char → Bool
  | [] => n.isEmpty
  | c :: h => isPfx n (c :: h) || listHasSub n h

/-- Boolean substring test on strings: does `h` contain `n`? -/
def strHas (h n : String) : Bool := listHasSub n.data h.data

/-- Propositional form: `n` occurs contiguously inside `h` (character lists). -/
def SubListAt (n h : List Char) : Prop := ∃ s t, h = s ++ n ++ t

/-- Propositional substring relation on strings. -/
def SubstrOf (n h : String) : Prop := SubListAt n.data h.data

/-- Propositional suffix relation on strings: `s` ends with `n`. -/
def EndsWith (n s : String) : Prop := ∃ p, s.data = p ++ n.data

/-- Python `str.replace`: replace all occurrences, modelled by `String.replace`
which has the same all-occurrences, left-to-right semantics. -/
def pyReplace (s old new : String) : String := s.replace old new

instance {ε α : Type} [DecidableEq ε] [DecidableEq α] : DecidableEq (Except ε α) :=
  fun a b =>
    match a, b with
    | .ok x, .ok y =>
      if h : x = y then .isTrue (by rw [h]) else .isFalse (fun hc => h (Except.ok.inj hc))
    | .error x, .error y =>
      if h : x = y then .isTrue (by rw [h]) else .isFalse (fun hc => h (Except.error.inj hc))
    | .ok _, .error _ => .isFalse (fun hc => Except.noConfusion hc)
    | .error _, .ok _ => .isFalse (fun hc => Except.noConfusion hc)

/-! ## Keyword trie (`snowflake.py`, `Snow.Tokenizer.merge_trie`)

A trie is a Python dict mapping keys to either a nested dict or a terminal
(non-dict) marker. Keys are character codes (with the scanner's end-of-word
sentinel among them); terminal markers carry a token-kind code. The dict is
embedded as an association list with first-match lookup. -/

/-- A trie value: a terminal marker (non-dict) or a nested sub-trie (dict). -/
inductive TrieV : Type where
  | term : Nat → TrieV
  | sub : List (Nat × TrieV) → TrieV

/-- Source `set(parent_trie.keys()) | set(new_trie.keys())`: every unique key of
either trie. -/
def trieKeys (p n : List (Nat × TrieV)) : List Nat :=
  (p.map Prod.fst ++ n.map Prod.fst).dedup

/-- The key-by-key worker of `merge_trie`, iterating over the union of keys.
For a key present in both tries: two dicts merge recursively, a dict beats a
non-dict from either side, and two non-dicts resolve to the new trie's value
(the `else` branch of the source). A key present in one trie keeps its value. -/
def mergeTrie : List Nat → List (Nat × TrieV) → List (Nat × TrieV) → List (Nat × TrieV)
  | [], _, _ => []
  | k :: ks, p, n =>
    match hp : p.lookup k, hn : n.lookup k with
    | some (.sub ps), some (.sub ns) =>
        (k, .sub (mergeTrie (trieKeys ps ns) ps ns)) :: mergeTrie ks p n
    | some (.sub ps), some (.term _) => (k, .sub ps) :: mergeTrie ks p n
    | some (.term _), some nv => (k, nv) :: mergeTrie ks p n
    | some pv, none => (k, pv) :: mergeTrie ks p n
    | none, some nv => (k, nv) :: mergeTrie ks p n
    | none, none => mergeTrie ks p n
termination_by ks p n => (sizeOf p + sizeOf n, ks.length)
decreasing_by
· simp_wf
  apply Prod.Lex.left
  have key : ∀ (l : List (Nat × TrieV)) (v : TrieV), l.lookup k = some v → sizeOf v < sizeOf l := by
    intro l
    induction l with
    | nil => intro v h; simp [List.lookup] at h
    | cons x rest ih =>
      intro v h
      obtain ⟨k', v'⟩ := x
      rw [List.lookup] at h
      split at h
      · injection h with h
        subst h
        simp only [List.cons.sizeOf_spec, Prod.mk.sizeOf_spec]
        omega
      · have := ih v h
        simp only [List.cons.sizeOf_spec, Prod.mk.sizeOf_spec]
        omega
  have h1 := key p _ hp
  have h2 := key n _ hn
  simp only [TrieV.sub.sizeOf_spec] at h1 h2
  omega
all_goals (simp_wf; apply Prod.Lex.right; simp)

/-- Source `Snow.Tokenizer.merge_trie` (snowflake.py). -/
def merge_trie (parent new : List (Nat × TrieV)) : List (Nat × TrieV) :=
  mergeTrie (trieKeys parent new) parent new

/-- The per-key collision rule of `merge_trie`, as a function of the two
lookup results. -/
def mergeVal : Option TrieV → Option TrieV → Option TrieV
  | some (.sub ps), some (.sub ns) => some (.sub (merge_trie ps ns))
  | some (.sub ps), some (.term _) => some (.sub ps)
  | some (.term _), some nv => some nv
  | some pv, none => some pv
  | none, some nv => some nv
  | none, none => none

/-! ## Mini expression AST shared by the parser and generator claims -/

/-- The fragment of the framework's expression nodes these claims need:
literals (`exp.Literal`, with text and `is_string`) and bare identifiers. -/
inductive Expr : Type where
  | lit (text : String) (is_str : Bool)
  | ident (name : String)
deriving DecidableEq

/-- Source `sqlglot.helper.seq_get`: `args[i]`, or `None` when out of range. -/
def seq_get (args : List Expr) (i : Nat) : Option Expr := args.get? i

/-- Framework rendering of one of these mini expressions (`self.sql(e)`). -/
def exprSql : Expr → String
  | .lit t true => "'" ++ t ++ "'"
  | .lit t false => t
  | .ident n => n

/-- Rendering of an argument list for an error message (`f"{args}"`). -/
def reprArgs (args : List Expr) : String :=
  "[" ++ String.intercalate ", " (args.map exprSql) ++ "]"

/-- Source `local_expression.TryToNumber` with its arguments
`this, expression, precision, scale` (`this_` stands for the source's
`this`, a reserved word here). -/
structure TryToNumber where
  this_ : Option Expr
  expression : Option Expr
  precision : Option Expr
  scale : Option Expr
deriving DecidableEq

/-- Source `_parse_trytonumber` (snowflake.py): 1 or 3 arguments raise `ParseError`
with the format/precision/scale message; 4 arguments build the full node;
any other count builds the two-argument node. -/
def parse_trytonumber (args : List Expr) : Except String TryToNumber :=
  if args.length = 1 ∨ args.length = 3 then
    .error ("Error Parsing args `" ++ reprArgs args ++ "`:\n" ++
      " * `format` is required\n" ++
      " * `precision` and `scale` both are required [if specifed]\n")
  else if args.length = 4 then
    .ok ⟨seq_get args 0, seq_get args 1, seq_get args 2, seq_get args 3⟩
  else
    .ok ⟨seq_get args 0, seq_get args 1, none, none⟩

/-- Source `self.sql(expression, key)`: render an optional child, empty if absent. -/
def sqlOf : Option Expr → String
  | none => ""
  | some e => exprSql e

/-- Source `Generator.func`: `NAME(arg, ...)` over the present arguments. -/
def genFunc (name : String) (args : List (Option Expr)) : String :=
  name ++ "(" ++ String.intercalate ", " ((args.filterMap id).map exprSql) ++ ")"

/-- Source `try_to_number` (databricks.py): renders
`CAST(TRY_TO_NUMBER(..) AS DECIMAL(precision, scale))`; an empty rendered
precision defaults to 38 and an empty rendered scale to 0 (Python
truthiness on the rendered strings); the format argument joins the call
when present. -/
def try_to_number (e : TryToNumber) : String :=
  let precision := sqlOf e.precision
  let scale := sqlOf e.scale
  let precision := if precision = "" then "38" else precision
  let scale := if scale = "" then "0" else scale
  let func_expr :=
    if e.expression.isSome then genFunc "TRY_TO_NUMBER" [e.this_, e.expression]
    else genFunc "TRY_TO_NUMBER" [e.this_]
  "CAST(" ++ func_expr ++ " AS DECIMAL(" ++ precision ++ ", " ++ scale ++ "))"

/-! ## Approx-percentile builder (`presto.py`, `_build_approx_percentile`)

The source computes `int((1/number) * 100)` with `number = float(arg.this)`
an IEEE-754 binary64 value. The embedding models binary64 exactly: a
positive finite double is a mantissa–exponent pair `(m, e)` of value
`m · 2^e` with `2^52 ≤ m < 2^53`, and every operation (decimal conversion,
reciprocal, product) rounds to nearest, ties to even, exactly as IEEE-754
prescribes. The exponent is not range-limited, so the model agrees with the
hardware wherever the computation stays in the binary64 normal range (no
overflow and no subnormals); the C6 theorems restrict their inputs to that
range. -/

/-- Round `A / B` to the nearest integer, ties to even (`B > 0`). -/
def roundNE (A B : ℕ) : ℕ :=
  let q := A / B
  let r := A % B
  if 2 * r < B then q
  else if B < 2 * r then q + 1
  else if q % 2 = 0 then q else q + 1

/-- Bit length, by halving; the fuel only bounds the recursion depth. -/
def bitlenAux : ℕ → ℕ → ℕ
  | 0, _ => 0
  | fuel + 1, n => if n = 0 then 0 else bitlenAux fuel (n / 2) + 1

/-- Number of binary digits of `n`. -/
def bitlen (n : ℕ) : ℕ := bitlenAux n n

/-- Round `(a / b) · 2 ^ d` to the nearest integer, ties to even. -/
def scaleRound (a b : ℕ) (d : ℤ) : ℕ :=
  if 0 ≤ d then roundNE (a * 2 ^ d.toNat) b
  else roundNE a (b * 2 ^ (-d).toNat)

/-- Round the positive rational `(a / b) · 2 ^ s` (`a, b > 0`) to binary64:
the nearest (ties to even) value `m · 2 ^ e` with `2^52 ≤ m < 2^53`. The
first exponent guess from the bit lengths can be one too small, hence the
second pass; a mantissa rounding up to `2^53` carries into the exponent. -/
def normF64 (a b : ℕ) (s : ℤ) : ℕ × ℤ :=
  let e1 : ℤ := (bitlen a : ℤ) - (bitlen b : ℤ) + s - 53
  let m1 := scaleRound a b (s - e1)
  if m1 < 2 ^ 53 then (m1, e1)
  else
    let e2 := e1 + 1
    let m2 := scaleRound a b (s - e2)
    if m2 < 2 ^ 53 then (m2, e2) else (2 ^ 52, e2 + 1)

/-- Python `float()` on the positive decimal `n / 10^k` (`n ≠ 0`): the
correctly rounded binary64 value. -/
def f64ofDec (n k : ℕ) : ℕ × ℤ := normF64 n (10 ^ k) 0

/-- Binary64 reciprocal `1 / (m · 2^e)`, correctly rounded. -/
def f64recip (x : ℕ × ℤ) : ℕ × ℤ := normF64 1 x.1 (-x.2)

/-- Binary64 product `(m · 2^e) * 100`, correctly rounded. -/
def f64mul100 (x : ℕ × ℤ) : ℕ × ℤ := normF64 (100 * x.1) 1 x.2

/-- Truncation of the positive double `m · 2^e` toward zero. -/
def f64trunc (x : ℕ × ℤ) : ℕ :=
  if 0 ≤ x.2 then x.1 * 2 ^ x.2.toNat else x.1 / 2 ^ (-x.2).toNat

/-- All-digit run to its numeric value. -/
def digitsNat (l : List Char) : Nat :=
  l.foldl (fun a c => a * 10 + (c.toNat - '0'.toNat)) 0

/-- Python `float()`'s view of a plain decimal literal (optional sign,
integer digits, optional `.` and fraction digits): the sign, the digit
string's value `n`, and the fraction length `k`, encoding the value
`± n / 10^k`; `none` when the string is not such a literal (in which case
`float()` raises `ValueError`). -/
def pyDecLit? (s : String) : Option (Bool × ℕ × ℕ) :=
  let core : List Char → Option (ℕ × ℕ) := fun l =>
    match l.span (· ≠ '.') with
    | (ip, []) =>
      if ip ≠ [] ∧ ip.all Char.isDigit then some (digitsNat ip, 0) else none
    | (ip, _ :: fp) =>
      if (ip ≠ [] ∨ fp ≠ []) ∧ ip.all Char.isDigit ∧ fp.all Char.isDigit ∧ ¬ fp.contains '.' then
        some (digitsNat (ip ++ fp), fp.length)
      else none
  match s.data with
  | '-' :: r => (core r).map (fun p => (true, p))
  | '+' :: r => (core r).map (fun p => (false, p))
  | r => (core r).map (fun p => (false, p))

/-- The source's accuracy computation `int((1/number) * 100)` for `number`
the binary64 value of the nonzero literal `± n / 10^k`: the reciprocal and
the product each round to nearest-even, and `int()` truncates toward zero
(the sign passes through the magnitude computation unchanged, as IEEE
rounding is sign-symmetric). -/
def pyAccuracy (neg : Bool) (n k : ℕ) : ℤ :=
  let x := f64ofDec n k
  let t : ℤ := f64trunc (f64mul100 (f64recip x))
  if neg then -t else t

/-- Source `arg.this` as the text Python `float()` receives. -/
def exprThisText : Expr → String
  | .lit t _ => t
  | .ident n => n

/-- Source `exp.ApproxQuantile` with arguments `this, weight, quantile, accuracy`. -/
structure ApproxQuantile where
  this_ : Option Expr
  weight : Option Expr
  quantile : Option Expr
  accuracy : Option Expr
deriving DecidableEq

/-- Modelled from the spec: the framework's generic builder
(`exp.ApproxQuantile.from_arg_list`, not under src/), assigning the
positional arguments in the node's declared order
`this, quantile, accuracy, weight`. -/
def approxQuantileFromArgList (args : List Expr) : ApproxQuantile :=
  ⟨seq_get args 0, seq_get args 3, seq_get args 1, seq_get args 2⟩

/-- Source `_build_approx_percentile` (presto.py). With 4 arguments the weight is
inserted before the quantile and the accuracy literal is
`f"{int((1/number) * 100)} "` (trailing space as in the source); with 3
arguments the same formula without the trailing space; any other arity
falls back to the generic builder. A non-numeric accuracy argument raises
`ParseError`; a zero accuracy raises Python's uncaught `ZeroDivisionError`,
modelled as a distinct error string. -/
def build_approx_percentile (args : List Expr) : Except String ApproxQuantile :=
  if args.length = 4 then
    match seq_get args 3 with
    | some a3 =>
      match pyDecLit? (exprThisText a3) with
      | some (neg, n, k) =>
        if n = 0 then .error "ZeroDivisionError: float division by zero"
        else .ok ⟨seq_get args 0, seq_get args 1, seq_get args 2,
          some (.lit (toString (pyAccuracy neg n k) ++ " ") false)⟩
      | none => .error ("Expected a string representation of a number for argument 2, but got "
          ++ exprSql a3)
    | none => .error "ZeroDivisionError: float division by zero"
  else if args.length = 3 then
    match seq_get args 2 with
    | some a2 =>
      match pyDecLit? (exprThisText a2) with
      | some (neg, n, k) =>
        if n = 0 then .error "ZeroDivisionError: float division by zero"
        else .ok ⟨seq_get args 0, none, seq_get args 1,
          some (.lit (toString (pyAccuracy neg n k)) false)⟩
      | none => .error ("Expected a string representation of a number for argument 2, but got "
          ++ exprSql a2)
    | none => .error "ZeroDivisionError: float division by zero"
  else .ok (approxQuantileFromArgList args)

/-! ## CREATE normalization (`databricks.py`, `_format_create_sql`) -/

/-- A Python attribute value: its truthiness plus an opaque payload
(enough to state that untouched arguments are preserved verbatim). -/
structure PyVal where
  truthy : Bool
  payload : String
deriving DecidableEq

/-- A node's `args` dict. -/
abbrev NodeArgs := List (String × PyVal)

/-- Source `expression.args.get(k)`. -/
def argsGet (a : NodeArgs) (k : String) : Option PyVal := a.lookup k

/-- Source `del expression.args[k]`. -/
def argsDel (a : NodeArgs) (k : String) : NodeArgs := a.filter (fun p => p.1 != k)

/-- The modifier arguments `_format_create_sql` strips. -/
def argsToDelete : List String :=
  ["temporary", "transient", "external", "replace", "exists", "unique",
   "materialized", "properties"]

/-- One loop iteration: `if expression.args.get(k): del expression.args[k]`. -/
def delStep (a : NodeArgs) (k : String) : NodeArgs :=
  match argsGet a k with
  | some v => if v.truthy then argsDel a k else a
  | none => a

/-- The stripped argument dict the base CREATE renderer receives. -/
def strippedCreateArgs (e : NodeArgs) : NodeArgs := argsToDelete.foldl delStep e

/-- Source `_format_create_sql` (databricks.py): `expression = expression.copy()`,
the deletion loop runs on the copy, and the copy is handed to the base hive
CREATE renderer (an out-of-scope collaborator, taken as a parameter). The
result pairs the rendered sql with the caller's node as the caller still
sees it after the call: the deletions touched only the copy. -/
def format_create_sql (hiveCreateSql : NodeArgs → String) (e : NodeArgs) :
    String × NodeArgs :=
  let copy := e
  let copy := argsToDelete.foldl delStep copy
  (hiveCreateSql copy, e)

/-! ## Column definitions (`databricks.py`, `_columndef_sql`) -/

/-- The allow-list `VALID_DATABRICKS_TYPES` (databricks.py). -/
def VALID_DATABRICKS_TYPES : List String :=
  ["BIGINT", "BINARY", "BOOLEAN", "DATE", "DECIMAL", "DOUBLE", "FLOAT", "INT",
   "INTERVAL", "VOID", "SMALLINT", "STRING", "TIMESTAMP", "TINYINT", "ARRAY",
   "MAP", "STRUCT"]

/-- Source `re.search("^([A-Za-z]+)", kind)`: the maximal leading run of ASCII
letters, `none` when the first character is not a letter (no match). -/
def leadingAlpha (s : String) : Option String :=
  let run := s.data.takeWhile Char.isAlpha
  if run.isEmpty then none else some run.asString

/-- A column constraint: a comment constraint or any other kind. -/
inductive Constraint where
  | comment (text : String)
  | other (sql : String)
deriving DecidableEq

def isCommentConstraint : Constraint → Bool
  | .comment _ => true
  | .other _ => false

def constraintSql : Constraint → String
  | .comment t => "COMMENT '" ++ t ++ "'"
  | .other s => s

/-- What `_columndef_sql` can raise: the explicit `UnsupportedError`, or the
unguarded `AttributeError` Python raises when the regex finds no match and
`.group(1)` is called on `None`. -/
inductive ColumnDefError where
  | unsupported (msg : String)
  | attributeError (msg : String)
deriving DecidableEq

/-- Source `_columndef_sql` (databricks.py), on the copy of the node: keeps only
comment constraints, renders `column kind [constraints]`, and validates the
leading alphabetic run of the rendered type against the allow-list.
`column` and `kind` are the framework-rendered name and type strings. -/
def columndef_sql (column kind : String) (constraints : List Constraint) :
    Except ColumnDefError String :=
  let filtered := constraints.filter isCommentConstraint
  let constraintsStr := String.intercalate " " (filtered.map constraintSql)
  match leadingAlpha kind with
  | none => .error (.attributeError "'NoneType' object has no attribute 'group'")
  | some kindStr =>
    if kindStr ∈ VALID_DATABRICKS_TYPES then
      if constraintsStr = "" then .ok (column ++ " " ++ kind)
      else .ok (column ++ " " ++ kind ++ " " ++ constraintsStr)
    else .error (.unsupported (kindStr ++ " is not a known Databricks type"))

/-! ## Tokenizer error window (`snowflake.py`, `Snow.Tokenizer.tokenize`) -/

/-- Python slice `s[a:b]` with possibly negative bounds. -/
def pySlice (s : String) (a b : Int) : String :=
  let n : Int := s.length
  let norm : Int → Nat := fun i => (if i < 0 then max 0 (n + i) else min i n).toNat
  ((s.data.drop (norm a)).take (norm b - norm a)).asString

/-- The diagnostic window `tokenize` builds on a scan failure:
`start = current - 50` replaced by 0 when not positive,
`end = current + 50` replaced by `size - 1` when not `< size`,
then `self.sql[start:end]`. -/
def tokenizeWindow (sql : String) (current : Nat) : String :=
  let size : Int := sql.length
  let start : Int := (current : Int) - 50
  let start := if start > 0 then start else 0
  let e : Int := (current : Int) + 50
  let e := if e < size then e else size - 1
  pySlice sql start e

/-- Source `Snow.Tokenizer.tokenize` (snowflake.py), after the keyword-table
bookkeeping: the base character scan (an out-of-scope collaborator) is
modelled by its outcome — the produced token list, or the failure offset
`self._current`. On any scan exception the method raises `ParseError`
around the windowed context; only a successful scan returns tokens. -/
def tokenize {α : Type} (sql : String) (scan : Except Nat (List α)) :
    Except String (List α) :=
  match scan with
  | .ok tokens => .ok tokens
  | .error current =>
    .error ("Error tokenizing '" ++ tokenizeWindow sql current ++ "'")

/-- Modelled from the spec: the window the claim describes, the slice
bounded by 50 characters each side of the failure offset and clamped to the
statement's bounds: `sql[max(0, current-50) : min(size, current+50)]`. -/
def claimedWindow (sql : String) (current : Nat) : String :=
  pySlice sql (max 0 ((current : Int) - 50)) (min (sql.length : Int) ((current : Int) + 50))

/-! ## DELETE rewrite (`databricks.py`, `Databricks.Generator.delete_sql`) -/

/-- The framework-rendered pieces `delete_sql` reads off the DELETE node:
`self.sql(expression, key)` for this/using/where/returning/limit, the
rendered multi-delete `tables`, and the prefix `prepend_ctes` adds
(`this_` stands for the source's `this`). -/
structure DeleteParts where
  this_ : String
  using_ : String
  where_ : String
  returning : String
  limit : String
  tables : String
  ctes : String
deriving DecidableEq

/-- Source `Databricks.Generator.delete_sql` (databricks.py). `returningEnd` is the
generator's `RETURNING_END` flag (true for this generator). With a USING
clause: every occurrence of `WHERE` in the rendered WHERE clause becomes
`ON` and the statement is a `MERGE .. WHEN MATCHED THEN DELETE;`; otherwise
a plain `DELETE`, with `FROM` prefixed to the target table. -/
def delete_sql (d : DeleteParts) (returningEnd : Bool) : String :=
  let tables := if d.tables ≠ "" then " " ++ d.tables else ""
  let p :=
    if d.using_ ≠ "" then
      (d.this_, " USING " ++ d.using_, pyReplace d.where_ "WHERE" "ON")
    else
      ((if d.this_ ≠ "" then "FROM " ++ d.this_ else ""), d.using_, d.where_)
  let expression_sql :=
    if returningEnd then " " ++ p.1 ++ p.2.1 ++ p.2.2 ++ d.returning ++ d.limit
    else d.returning ++ p.1 ++ p.2.2 ++ d.limit
  if d.using_ ≠ "" then
    d.ctes ++ ("MERGE" ++ tables ++ expression_sql ++ " WHEN MATCHED THEN DELETE;")
  else
    d.ctes ++ ("DELETE" ++ tables ++ expression_sql)

/-- Everything `delete_sql` emits after the `DELETE` keyword in the
empty-USING branch: the padded tables and the assembled clause text. -/
def deleteTail (d : DeleteParts) (returningEnd : Bool) : String :=
  let tables := if d.tables ≠ "" then " " ++ d.tables else ""
  let this_ := if d.this_ ≠ "" then "FROM " ++ d.this_ else ""
  let expression_sql :=
    if returningEnd then " " ++ this_ ++ d.using_ ++ d.where_ ++ d.returning ++ d.limit
    else d.returning ++ this_ ++ d.where_ ++ d.limit
  tables ++ expression_sql

/-! # Helper lemmas -/

theorem isPfx_iff (n h : List Char) : isPfx n h = true ↔ ∃ t, h = n ++ t := by
  induction n generalizing h with
  | nil => simp [isPfx]
  | cons a n ih =>
    cases h with
    | nil => simp [isPfx]
    | cons b h =>
      simp only [isPfx, Bool.and_eq_true, beq_iff_eq, ih]
      constructor
      · rintro ⟨rfl, t, rfl⟩; exact ⟨t, rfl⟩
      · rintro ⟨t, ht⟩
        injection ht with h1 h2
        exact ⟨h1.symm, t, h2⟩

theorem listHasSub_iff (n h : List Char) : listHasSub n h = true ↔ SubListAt n h := by
  induction h with
  | nil =>
    simp only [listHasSub, List.isEmpty_iff, SubListAt]
    constructor
    · rintro rfl; exact ⟨[], [], rfl⟩
    · rintro ⟨s, t, ht⟩
      rcases List.append_eq_nil.mp (List.append_eq_nil.mp ht.symm).1 with ⟨_, h2⟩
      exact h2
  | cons c h ih =>
    simp only [listHasSub, Bool.or_eq_true, isPfx_iff, ih, SubListAt]
    constructor
    · rintro (⟨t, ht⟩ | ⟨s, t, ht⟩)
      · exact ⟨[], t, by simp [ht]⟩
      · exact ⟨c :: s, t, by simp [ht]⟩
    · rintro ⟨s, t, ht⟩
      cases s with
      | nil => exact Or.inl ⟨t, by simpa using ht⟩
      | cons x s =>
        injection ht with h1 h2
        exact Or.inr ⟨s, t, h2⟩

theorem strHas_iff (h n : String) : strHas h n = true ↔ SubstrOf n h :=
  listHasSub_iff n.data h.data

theorem data_append (a b : String) : (a ++ b).data = a.data ++ b.data := by
  cases a; cases b; rfl

/-- A contiguous occurrence inside an append splits into: entirely in the
left part, entirely in the right part, or a nonempty span across the seam. -/
theorem subListAt_append {n x y : List Char} (h : SubListAt n (x ++ y)) :
    SubListAt n x ∨ SubListAt n y ∨
      ∃ n₁ n₂, n = n₁ ++ n₂ ∧ n₁ ≠ [] ∧ n₂ ≠ [] ∧
        (∃ u, x = u ++ n₁) ∧ (∃ v, y = n₂ ++ v) := by
  obtain ⟨s, t, ht⟩ := h
  rw [show s ++ n ++ t = (s ++ n) ++ t by simp] at ht
  rcases List.append_eq_append_iff.mp ht with ⟨a, ha1, ha2⟩ | ⟨c, hc1, _⟩
  · -- ha1 : s ++ n = x ++ a, ha2 : y = a ++ t
    rcases List.append_eq_append_iff.mp ha1 with ⟨b, hb1, hb2⟩ | ⟨b, _, hb2⟩
    · -- hb1 : x = s ++ b, hb2 : n = b ++ a
      cases b with
      | nil =>
        right; left
        exact ⟨[], t, by rw [ha2]; simp at hb2; rw [hb2]; simp⟩
      | cons z b =>
        by_cases hae : a = []
        · left
          refine ⟨s, [], ?_⟩
          rw [hae, List.append_nil] at hb2
          rw [hb1, hb2]
          simp
        · right; right
          exact ⟨z :: b, a, hb2, by simp, hae, ⟨s, hb1⟩, ⟨t, ha2⟩⟩
    · -- hb2 : a = b ++ n
      right; left
      exact ⟨b, t, by rw [ha2, hb2]⟩
  · left
    exact ⟨s, c, by rw [hc1]⟩

theorem subListAt_of_left {n x : List Char} (y : List Char) (h : SubListAt n x) :
    SubListAt n (x ++ y) := by
  obtain ⟨s, t, rfl⟩ := h
  exact ⟨s, t ++ y, by simp⟩

theorem subListAt_of_right {n y : List Char} (x : List Char) (h : SubListAt n y) :
    SubListAt n (x ++ y) := by
  obtain ⟨s, t, rfl⟩ := h
  exact ⟨x ++ s, t, by simp⟩

theorem strHas_eq_false_iff (h n : String) : strHas h n = false ↔ ¬ SubstrOf n h := by
  rw [← strHas_iff h n]
  cases hb : strHas h n <;> simp

theorem substrOf_appendR {n y : String} (x : String) (h : SubstrOf n y) :
    SubstrOf n (x ++ y) := by
  rw [SubstrOf, data_append]
  exact subListAt_of_right x.data h

theorem substrOf_appendL {n x : String} (y : String) (h : SubstrOf n x) :
    SubstrOf n (x ++ y) := by
  rw [SubstrOf, data_append]
  exact subListAt_of_left y.data h

theorem substrOf_refl (n : String) : SubstrOf n n := ⟨[], [], by simp⟩

theorem endsWith_append (x n : String) : EndsWith n (x ++ n) :=
  ⟨x.data, by rw [data_append]⟩

/-- Lookups in the trie association lists. -/
theorem lookup_none_iff (l : List (Nat × TrieV)) (k : Nat) :
    l.lookup k = none ↔ k ∉ l.map Prod.fst := by
  induction l with
  | nil => simp [List.lookup]
  | cons x rest ih =>
    obtain ⟨k', v⟩ := x
    by_cases hk : k = k'
    · subst hk
      simp [List.lookup]
    · have hbe : (k == k') = false := by simp [hk]
      simp [List.lookup, hbe, ih, hk]

theorem mem_trieKeys (p n : List (Nat × TrieV)) (k : Nat) :
    k ∈ trieKeys p n ↔ k ∈ p.map Prod.fst ∨ k ∈ n.map Prod.fst := by
  simp [trieKeys]

/-- Pointwise behaviour of the key-iterating worker of `merge_trie`. -/
theorem lookup_mergeTrie (keys : List Nat) (p n : List (Nat × TrieV)) (k : Nat) :
    (mergeTrie keys p n).lookup k =
      if k ∈ keys then mergeVal (p.lookup k) (n.lookup k) else none := by
  induction keys with
  | nil => simp [mergeTrie, List.lookup]
  | cons k' ks ih =>
    simp only [mergeTrie]
    split
    all_goals rename_i hp hn
    all_goals
      by_cases hk : k = k'
    all_goals
      first
      | (subst hk
         simp [List.lookup, hp, hn, mergeVal, merge_trie, ih])
      | (have hbe : (k == k') = false := by simp [hk]
         simp [List.lookup, hbe, hp, hn, mergeVal, hk, ih])

/-- Lookup characterization of `merge_trie`: pointwise it is the per-key
collision rule applied to the two lookups. -/
theorem lookup_merge_trie (p n : List (Nat × TrieV)) (k : Nat) :
    (merge_trie p n).lookup k = mergeVal (p.lookup k) (n.lookup k) := by
  rw [merge_trie, lookup_mergeTrie]
  by_cases h : k ∈ trieKeys p n
  · rw [if_pos h]
  · rw [if_neg h]
    rw [mem_trieKeys] at h
    push_neg at h
    rw [(lookup_none_iff p k).mpr h.1, (lookup_none_iff n k).mpr h.2]
    rfl

/-! # Claim theorems -/

/-- C2 counterexample: merging the parent trie `{0: term 1}` with the new
trie `{0: term 2}` stores the NEW trie's terminal at key 0 (the source's
final `else` takes `new_trie[key]`), refuting the claim that a
terminal–terminal collision prefers the parent trie's value. -/
theorem C2_counterexample :
    (merge_trie [(0, .term 1)] [(0, .term 2)]).lookup 0 = some (.term 2) ∧
      (merge_trie [(0, .term 1)] [(0, .term 2)]).lookup 0 ≠ some (.term 1) := by
  have h := lookup_merge_trie [(0, .term 1)] [(0, .term 2)] 0
  have hp : ([((0 : Nat), TrieV.term 1)].lookup 0) = some (.term 1) := rfl
  have hn : ([((0 : Nat), TrieV.term 2)].lookup 0) = some (.term 2) := rfl
  rw [hp, hn] at h
  have h2 : (merge_trie [(0, .term 1)] [(0, .term 2)]).lookup 0 = some (.term 2) := h
  refine ⟨h2, ?_⟩
  rw [h2]
  simp

/-- C2 (amended): `merge_trie` computes the deep union pointwise: a key
present in only one trie keeps that trie's value; two nested mappings merge
recursively; a nested mapping beats a terminal from the other side; a
terminal–terminal collision keeps the NEW (second) trie's value, not the
parent's. -/
theorem C2_merge_trie_deep_union (p n : List (Nat × TrieV)) (k : Nat) :
    (n.lookup k = none → (merge_trie p n).lookup k = p.lookup k) ∧
    (p.lookup k = none → (merge_trie p n).lookup k = n.lookup k) ∧
    (∀ ps ns, p.lookup k = some (.sub ps) → n.lookup k = some (.sub ns) →
      (merge_trie p n).lookup k = some (.sub (merge_trie ps ns))) ∧
    (∀ ps t, p.lookup k = some (.sub ps) → n.lookup k = some (.term t) →
      (merge_trie p n).lookup k = some (.sub ps)) ∧
    (∀ t ns, p.lookup k = some (.term t) → n.lookup k = some (.sub ns) →
      (merge_trie p n).lookup k = some (.sub ns)) ∧
    (∀ t u, p.lookup k = some (.term t) → n.lookup k = some (.term u) →
      (merge_trie p n).lookup k = some (.term u)) := by
  refine ⟨?_, ?_, ?_, ?_, ?_, ?_⟩
  · intro hn
    rw [lookup_merge_trie, hn]
    cases hv : p.lookup k with
    | none => rfl
    | some v => cases v <;> rfl
  · intro hp
    rw [lookup_merge_trie, hp]
    cases hv : n.lookup k with
    | none => rfl
    | some v => cases v <;> rfl
  · intro ps ns hp hn
    rw [lookup_merge_trie, hp, hn]
    rfl
  · intro ps t hp hn
    rw [lookup_merge_trie, hp, hn]
    rfl
  · intro t ns hp hn
    rw [lookup_merge_trie, hp, hn]
    rfl
  · intro t u hp hn
    rw [lookup_merge_trie, hp, hn]
    rfl

/-- Witness for C2: the recursive-merge case at concrete tries. -/
theorem C2_merge_trie_deep_union_witness :
    (merge_trie [(1, TrieV.sub [(2, TrieV.term 7)])]
        [(1, TrieV.sub [(3, TrieV.term 8)])]).lookup 1 =
      some (.sub (merge_trie [(2, TrieV.term 7)] [(3, TrieV.term 8)])) :=
  (C2_merge_trie_deep_union [(1, TrieV.sub [(2, TrieV.term 7)])]
    [(1, TrieV.sub [(3, TrieV.term 8)])] 1).2.2.1 _ _ rfl rfl

/-- C3: on disjoint key sets `merge_trie` is commutative — the two results
agree pointwise, which is what Python dict equality compares, and with
identical values; and on keys holding nested mappings on both sides the
result is deterministically the recursive merge of the two sub-tries. -/
theorem C3_merge_trie_comm_det (a b : List (Nat × TrieV))
    (hdisj : ∀ k, k ∈ a.map Prod.fst → k ∉ b.map Prod.fst) :
    (∀ k, (merge_trie a b).lookup k = (merge_trie b a).lookup k) ∧
    (∀ (c d : List (Nat × TrieV)) (k : Nat) (cs ds : List (Nat × TrieV)),
      c.lookup k = some (.sub cs) → d.lookup k = some (.sub ds) →
      (merge_trie c d).lookup k = some (.sub (merge_trie cs ds))) := by
  constructor
  · intro k
    rw [lookup_merge_trie, lookup_merge_trie]
    cases ha : a.lookup k with
    | none =>
      cases hb : b.lookup k with
      | none => rfl
      | some v => cases v <;> rfl
    | some v =>
      have hka : k ∈ a.map Prod.fst := by
        by_contra hmem
        rw [← lookup_none_iff] at hmem
        rw [hmem] at ha
        cases ha
      have hb : b.lookup k = none := (lookup_none_iff b k).mpr (hdisj k hka)
      rw [hb]
      cases v <;> rfl
  · intro c d k cs ds hc hd
    rw [lookup_merge_trie, hc, hd]
    rfl

/-- Witness for C3 at concrete disjoint tries. -/
theorem C3_merge_trie_comm_det_witness :
    (merge_trie [(1, TrieV.term 4)] [(2, TrieV.term 5)]).lookup 1 =
      (merge_trie [(2, TrieV.term 5)] [(1, TrieV.term 4)]).lookup 1 :=
  (C3_merge_trie_comm_det [(1, TrieV.term 4)] [(2, TrieV.term 5)] (by decide)).1 1

/-- C4: `_parse_trytonumber` raises the parse error stating that `format`
is required and that `precision` and `scale` come together exactly on 1 or
3 arguments; 2 arguments build `TryToNumber(value, format)` and 4 arguments
build `TryToNumber(value, format, precision, scale)`. -/
theorem C4_parse_trytonumber (args : List Expr) :
    (args.length = 1 ∨ args.length = 3 →
      ∃ msg, parse_trytonumber args = .error msg ∧
        SubstrOf "`format` is required" msg ∧
        SubstrOf "`precision` and `scale` both are required" msg) ∧
    (∀ a b, args = [a, b] →
      parse_trytonumber args = .ok ⟨some a, some b, none, none⟩) ∧
    (∀ a b c e, args = [a, b, c, e] →
      parse_trytonumber args = .ok ⟨some a, some b, some c, some e⟩) := by
  refine ⟨?_, ?_, ?_⟩
  · intro h
    refine ⟨_, by rw [parse_trytonumber, if_pos h], ?_, ?_⟩
    · apply substrOf_appendL
      apply substrOf_appendR
      exact (strHas_iff _ _).mp (by decide)
    · apply substrOf_appendR
      exact (strHas_iff _ _).mp (by decide)
  · intro a b h
    subst h
    rfl
  · intro a b c e h
    subst h
    rfl

/-- Witness for C4: one argument errors with the format message; two
arguments build the node. -/
theorem C4_parse_trytonumber_witness :
    (∃ msg, parse_trytonumber [Expr.lit "1.5" true] = .error msg ∧
      SubstrOf "`format` is required" msg ∧
      SubstrOf "`precision` and `scale` both are required" msg) ∧
    parse_trytonumber [Expr.lit "1.5" true, Expr.lit "9.9" true] =
      .ok ⟨some (.lit "1.5" true), some (.lit "9.9" true), none, none⟩ :=
  ⟨(C4_parse_trytonumber [Expr.lit "1.5" true]).1 (Or.inl rfl),
   (C4_parse_trytonumber [Expr.lit "1.5" true, Expr.lit "9.9" true]).2.1 _ _ rfl⟩

/-- C5: with no precision and no scale `try_to_number` renders the
`TRY_TO_NUMBER` call cast to `DECIMAL(38, 0)` — precision defaults to 38
and scale to 0; with both present and nonempty it casts to
`DECIMAL(precision, scale)` as rendered. -/
theorem C5_try_to_number (e : TryToNumber) :
    (e.precision = none → e.scale = none →
      ∃ fargs, try_to_number e =
        "CAST(" ++ genFunc "TRY_TO_NUMBER" fargs ++ " AS DECIMAL(" ++ "38" ++ ", " ++ "0" ++ "))") ∧
    (∀ p s, e.precision = some p → e.scale = some s →
      exprSql p ≠ "" → exprSql s ≠ "" →
      ∃ fargs, try_to_number e =
        "CAST(" ++ genFunc "TRY_TO_NUMBER" fargs ++ " AS DECIMAL(" ++ exprSql p ++ ", " ++ exprSql s ++ "))") := by
  constructor
  · intro hp hs
    cases he : e.expression with
    | none =>
      refine ⟨[e.this_], ?_⟩
      simp [try_to_number, hp, hs, he, sqlOf]
    | some f =>
      refine ⟨[e.this_, some f], ?_⟩
      simp [try_to_number, hp, hs, he, sqlOf]
  · intro p s hp hs hne1 hne2
    cases he : e.expression with
    | none =>
      refine ⟨[e.this_], ?_⟩
      simp [try_to_number, hp, hs, he, sqlOf, hne1, hne2]
    | some f =>
      refine ⟨[e.this_, some f], ?_⟩
      simp [try_to_number, hp, hs, he, sqlOf, hne1, hne2]

/-- Witness for C5: the spec's own examples — value only gives
`DECIMAL(38, 0)`; explicit precision 3 and scale 1 give `DECIMAL(3, 1)`. -/
theorem C5_try_to_number_witness :
    (∃ fargs, try_to_number ⟨some (.lit "1.5" true), none, none, none⟩ =
      "CAST(" ++ genFunc "TRY_TO_NUMBER" fargs ++ " AS DECIMAL(" ++ "38" ++ ", " ++ "0" ++ "))") ∧
    (∃ fargs, try_to_number ⟨some (.lit "1.5" true), some (.lit "9.9" true),
        some (.lit "3" false), some (.lit "1" false)⟩ =
      "CAST(" ++ genFunc "TRY_TO_NUMBER" fargs ++ " AS DECIMAL(" ++ "3" ++ ", " ++ "1" ++ "))") :=
  ⟨(C5_try_to_number ⟨some (.lit "1.5" true), none, none, none⟩).1 rfl rfl,
   (C5_try_to_number ⟨some (.lit "1.5" true), some (.lit "9.9" true),
      some (.lit "3" false), some (.lit "1" false)⟩).2 _ _ rfl rfl
      (by decide) (by decide)⟩

/-- The 3-argument branch of `_build_approx_percentile` on a parseable
nonzero accuracy literal. -/
theorem build_approx_percentile_three (a b : Expr) (t : String) (ib : Bool)
    (neg : Bool) (n k : ℕ) (hx : pyDecLit? t = some (neg, n, k)) (hn0 : n ≠ 0) :
    build_approx_percentile [a, b, .lit t ib] =
      .ok ⟨some a, none, some b, some (.lit (toString (pyAccuracy neg n k)) false)⟩ := by
  simp [build_approx_percentile, seq_get, exprThisText, hx, hn0]

/-- C6 counterexample: for accuracy fraction `0.01` the source computes
`int((1/0.01) * 100)` in binary64 — `1/0.01` rounds to exactly `100.0` and
`100.0 * 100` is exactly `10000.0` — so the built accuracy literal is
`10000`, not the `100` the claim asserts for this input. -/
theorem C6_counterexample :
    build_approx_percentile [.ident "x", .lit "0.5" false, .lit "0.01" false] =
      .ok ⟨some (.ident "x"), none, some (.lit "0.5" false), some (.lit "10000" false)⟩ ∧
    Expr.lit "10000" false ≠ Expr.lit "100" false := by
  constructor
  · have h := build_approx_percentile_three (.ident "x") (.lit "0.5" false) "0.01" false
      false 1 2 (by decide) (by decide)
    rw [h]
    decide
  · simp

/-- C6 (amended): 3 arguments whose accuracy argument is a nonzero decimal
literal `± n / 10^k` within the binary64 normal range (`k ≤ 250`,
`n ≤ 10^250`) build `ApproxQuantile(value, quantile, accuracy)` whose
accuracy literal is the binary64 evaluation of `int((1/x) * 100)` — 10000
for `0.01` and 2000 for `0.05`, not 100 and 20; 4 arguments insert the
weight before the quantile and apply the same formula (with the source's
trailing space in the literal); any other arity falls back to the generic
builder. -/
theorem C6_build_approx_percentile (args : List Expr) :
    (∀ a b t ib neg n k, args = [a, b, .lit t ib] →
      pyDecLit? t = some (neg, n, k) → n ≠ 0 → k ≤ 250 → n ≤ 10 ^ 250 →
      build_approx_percentile args =
        .ok ⟨some a, none, some b, some (.lit (toString (pyAccuracy neg n k)) false)⟩) ∧
    (∀ a b c t ib neg n k, args = [a, b, c, .lit t ib] →
      pyDecLit? t = some (neg, n, k) → n ≠ 0 → k ≤ 250 → n ≤ 10 ^ 250 →
      build_approx_percentile args =
        .ok ⟨some a, some b, some c, some (.lit (toString (pyAccuracy neg n k) ++ " ") false)⟩) ∧
    (args.length ≠ 3 → args.length ≠ 4 →
      build_approx_percentile args = .ok (approxQuantileFromArgList args)) := by
  refine ⟨?_, ?_, ?_⟩
  · rintro a b t ib neg n k rfl hx hn0 _ _
    simp [build_approx_percentile, seq_get, exprThisText, hx, hn0]
  · rintro a b c t ib neg n k rfl hx hn0 _ _
    simp [build_approx_percentile, seq_get, exprThisText, hx, hn0]
  · intro h3 h4
    simp [build_approx_percentile, h3, h4]

/-- Witness for C6: fraction `0.05` yields accuracy literal `2000`; a
2-argument call routes through the generic builder. -/
theorem C6_build_approx_percentile_witness :
    build_approx_percentile [.ident "x", .lit "0.5" false, .lit "0.05" false] =
      .ok ⟨some (.ident "x"), none, some (.lit "0.5" false), some (.lit "2000" false)⟩ ∧
    build_approx_percentile [.ident "x", .lit "0.5" false] =
      .ok (approxQuantileFromArgList [.ident "x", .lit "0.5" false]) := by
  constructor
  · have h := (C6_build_approx_percentile [.ident "x", .lit "0.5" false, .lit "0.05" false]).1
      (.ident "x") (.lit "0.5" false) "0.05" false false 5 2 rfl (by decide) (by decide)
      (by decide) (by norm_num)
    rw [h]
    decide
  · exact (C6_build_approx_percentile [.ident "x", .lit "0.5" false]).2.2
      (by decide) (by decide)

/-- Lookup after deleting a key from a node's args. -/
theorem argsGet_argsDel (a : NodeArgs) (k k' : String) :
    argsGet (argsDel a k') k = if k = k' then none else argsGet a k := by
  induction a with
  | nil =>
    simp [argsGet, argsDel, List.lookup]
  | cons x rest ih =>
    obtain ⟨k₂, v⟩ := x
    by_cases h2 : k₂ = k'
    · subst h2
      have : argsDel ((k₂, v) :: rest) k₂ = argsDel rest k₂ := by
        simp [argsDel]
      rw [this, ih]
      by_cases hk : k = k₂
      · simp [hk]
      · have hbe : (k == k₂) = false := by simp [hk]
        simp [hk, argsGet, List.lookup, hbe]
    · have hstep : argsDel ((k₂, v) :: rest) k' = (k₂, v) :: argsDel rest k' := by
        simp [argsDel, h2]
      rw [hstep]
      by_cases hk : k = k₂
      · subst hk
        rw [if_neg h2]
        simp [argsGet, List.lookup]
      · have hbe : (k == k₂) = false := by simp [hk]
        have l1 : argsGet ((k₂, v) :: argsDel rest k') k = argsGet (argsDel rest k') k := by
          simp [argsGet, List.lookup, hbe]
        have l2 : argsGet ((k₂, v) :: rest) k = argsGet rest k := by
          simp [argsGet, List.lookup, hbe]
        rw [l1, ih, l2]

/-- One deletion step leaves other keys untouched. -/
theorem delStep_get_ne (a : NodeArgs) (k : String) {k' : String} (h : k' ≠ k) :
    argsGet (delStep a k) k' = argsGet a k' := by
  unfold delStep
  cases hg : argsGet a k with
  | none => rfl
  | some v =>
    by_cases ht : v.truthy
    · simp [ht, argsGet_argsDel, h]
    · simp [ht]

/-- After one deletion step the stepped key is gone or already falsy. -/
theorem delStep_get_self (a : NodeArgs) (k : String) :
    ∀ v, argsGet (delStep a k) k = some v → v.truthy = false := by
  intro v hv
  unfold delStep at hv
  split at hv
  · rename_i v₀ hg
    split at hv
    · rw [argsGet_argsDel, if_pos rfl] at hv
      cases hv
    · rename_i ht
      rw [hg] at hv
      injection hv with hv
      subst hv
      simpa using ht
  · rename_i hg
    rw [hg] at hv
    cases hv

/-- Keys outside the deletion list survive the whole loop unchanged. -/
theorem foldl_delStep_ne (ks : List String) (a : NodeArgs) (k : String)
    (h : k ∉ ks) : argsGet (ks.foldl delStep a) k = argsGet a k := by
  induction ks generalizing a with
  | nil => rfl
  | cons k' ks ih =>
    have h1 : k ∉ ks := fun hc => h (List.mem_cons_of_mem _ hc)
    have h2 : k ≠ k' := fun hc => h (hc ▸ List.mem_cons_self _ _)
    rw [List.foldl_cons, ih _ h1, delStep_get_ne _ _ h2]

/-- Once a key is gone-or-falsy it stays gone-or-falsy through the loop. -/
theorem foldl_delStep_pres (ks : List String) (a : NodeArgs) (k : String)
    (h : ∀ v, argsGet a k = some v → v.truthy = false) :
    ∀ v, argsGet (ks.foldl delStep a) k = some v → v.truthy = false := by
  induction ks generalizing a with
  | nil => exact h
  | cons k' ks ih =>
    rw [List.foldl_cons]
    apply ih
    by_cases hk : k = k'
    · subst hk
      exact delStep_get_self a k
    · intro v hv
      rw [delStep_get_ne a k' hk] at hv
      exact h v hv

/-- Every key in the deletion list ends gone-or-falsy. -/
theorem foldl_delStep_mem (ks : List String) (a : NodeArgs) (k : String)
    (h : k ∈ ks) : ∀ v, argsGet (ks.foldl delStep a) k = some v → v.truthy = false := by
  induction ks generalizing a with
  | nil => cases h
  | cons k' ks ih =>
    rw [List.foldl_cons]
    by_cases hk : k = k'
    · subst hk
      exact foldl_delStep_pres ks (delStep a k) k (delStep_get_self a k)
    · have hmem : k ∈ ks := by
        rcases List.mem_cons.mp h with h1 | h1
        · exact absurd h1 hk
        · exact h1
      exact ih (delStep a k') hmem

/-- C7: `_format_create_sql` works on a copy: the base CREATE renderer
receives the node with every truthy
temporary/transient/external/replace/exists/unique/materialized/properties
argument deleted and all other arguments unchanged, while the caller's node
is unchanged after rendering. -/
theorem C7_format_create_sql (f : NodeArgs → String) (e : NodeArgs) :
    (format_create_sql f e).2 = e ∧
    (format_create_sql f e).1 = f (strippedCreateArgs e) ∧
    (∀ k, k ∈ argsToDelete →
      ∀ v, argsGet (strippedCreateArgs e) k = some v → v.truthy = false) ∧
    (∀ k, k ∉ argsToDelete →
      argsGet (strippedCreateArgs e) k = argsGet e k) := by
  refine ⟨rfl, rfl, ?_, ?_⟩
  · intro k hk v hv
    exact foldl_delStep_mem argsToDelete e k hk v hv
  · intro k hk
    exact foldl_delStep_ne argsToDelete e k hk

/-- Witness for C7 at a concrete node: the original survives, a falsy
`external` flag is untouched (and stays falsy), and the non-modifier key
keeps its value. -/
theorem C7_format_create_sql_witness :
    (format_create_sql (fun _ => "SQL")
      [("temporary", ⟨true, "1"⟩), ("external", ⟨false, "0"⟩), ("kind", ⟨true, "table"⟩)]).2 =
      [("temporary", ⟨true, "1"⟩), ("external", ⟨false, "0"⟩), ("kind", ⟨true, "table"⟩)] ∧
    (⟨false, "0"⟩ : PyVal).truthy = false ∧
    argsGet (strippedCreateArgs
      [("temporary", ⟨true, "1"⟩), ("external", ⟨false, "0"⟩), ("kind", ⟨true, "table"⟩)]) "kind" =
    argsGet [("temporary", ⟨true, "1"⟩), ("external", ⟨false, "0"⟩), ("kind", ⟨true, "table"⟩)] "kind" :=
  ⟨(C7_format_create_sql (fun _ => "SQL")
      [("temporary", ⟨true, "1"⟩), ("external", ⟨false, "0"⟩), ("kind", ⟨true, "table"⟩)]).1,
   (C7_format_create_sql (fun _ => "SQL")
      [("temporary", ⟨true, "1"⟩), ("external", ⟨false, "0"⟩), ("kind", ⟨true, "table"⟩)]).2.2.1
      "external" (by decide) ⟨false, "0"⟩ rfl,
   (C7_format_create_sql (fun _ => "SQL")
      [("temporary", ⟨true, "1"⟩), ("external", ⟨false, "0"⟩), ("kind", ⟨true, "table"⟩)]).2.2.2
      "kind" (by decide)⟩

/-- C8: when the rendered type has a leading alphabetic run,
`_columndef_sql` raises `UnsupportedError` naming that run exactly when it
is outside `VALID_DATABRICKS_TYPES`, and renders successfully when it is
inside. -/
theorem C8_columndef_type_check (column kind : String) (constraints : List Constraint)
    (kindStr : String) (h : leadingAlpha kind = some kindStr) :
    (kindStr ∉ VALID_DATABRICKS_TYPES →
      columndef_sql column kind constraints =
        .error (.unsupported (kindStr ++ " is not a known Databricks type"))) ∧
    (kindStr ∈ VALID_DATABRICKS_TYPES →
      ∃ s, columndef_sql column kind constraints = .ok s) := by
  constructor
  · intro hmem
    simp [columndef_sql, h, hmem]
  · intro hmem
    by_cases hc : String.intercalate " "
        ((constraints.filter isCommentConstraint).map constraintSql) = ""
    · exact ⟨column ++ " " ++ kind, by simp [columndef_sql, h, hmem, hc]⟩
    · exact ⟨column ++ " " ++ kind ++ " " ++
        String.intercalate " " ((constraints.filter isCommentConstraint).map constraintSql),
        by simp [columndef_sql, h, hmem, hc]⟩

/-- Witness for C8: `FOOBAR` errors naming `FOOBAR`; `INT` renders. -/
theorem C8_columndef_type_check_witness :
    columndef_sql "a" "FOOBAR" [] =
      .error (.unsupported ("FOOBAR" ++ " is not a known Databricks type")) ∧
    (∃ s, columndef_sql "a" "INT" [] = .ok s) :=
  ⟨(C8_columndef_type_check "a" "FOOBAR" [] "FOOBAR" rfl).1 (by decide),
   (C8_columndef_type_check "a" "INT" [] "INT" rfl).2 (by decide)⟩

/-- C10: when the rendered type does not start with an ASCII letter, the
regex search has no match and `_columndef_sql` fails with the unguarded
`AttributeError` (from `.group(1)` on `None`), not with the
unsupported-construct error — the validation branch is not total. -/
theorem C10_columndef_nonalpha (column kind : String) (constraints : List Constraint)
    (h : leadingAlpha kind = none) :
    columndef_sql column kind constraints =
      .error (.attributeError "'NoneType' object has no attribute 'group'") ∧
    ∀ msg, columndef_sql column kind constraints ≠ .error (.unsupported msg) := by
  have hmain : columndef_sql column kind constraints =
      .error (.attributeError "'NoneType' object has no attribute 'group'") := by
    simp [columndef_sql, h]
  refine ⟨hmain, fun msg hc => ?_⟩
  rw [hmain] at hc
  simp at hc

/-- Witness for C10: the empty rendered type. -/
theorem C10_columndef_nonalpha_witness :
    columndef_sql "a" "" [] =
      .error (.attributeError "'NoneType' object has no attribute 'group'") :=
  (C10_columndef_nonalpha "a" "" [] rfl).1

/-- C9 counterexample: failing at offset 0 of the one-character statement
`q`, the code window is `sql[0:0] = ""` (the end bound was clamped to
`size - 1 = 0`), so the message does not contain the spec's clamped window
`sql[0:1] = "q"`. -/
theorem C9_counterexample :
    tokenize "q" (Except.error 0 : Except Nat (List Nat)) = .error "Error tokenizing ''" ∧
    claimedWindow "q" 0 = "q" ∧
    ¬ SubstrOf (claimedWindow "q" 0) "Error tokenizing ''" := by
  refine ⟨by decide, by decide, ?_⟩
  rw [show claimedWindow "q" 0 = "q" from by decide]
  exact (strHas_eq_false_iff _ _).mp (by decide)

/-- C9 (amended): on any scan failure `tokenize` raises the parse error and
never returns tokens; the message embeds the code's window, whose end bound
is clamped to `size - 1` (dropping the final character when the window
reaches the right edge) and which coincides with the fully-clamped ±50
window of the spec whenever `current + 50 < size`. -/
theorem C9_tokenize_error_window {α : Type} (sql : String) (scan : Except Nat (List α))
    (current : Nat) (h : scan = .error current) :
    tokenize sql scan = .error ("Error tokenizing '" ++ tokenizeWindow sql current ++ "'") ∧
    SubstrOf (tokenizeWindow sql current)
      ("Error tokenizing '" ++ tokenizeWindow sql current ++ "'") ∧
    (∀ ts, tokenize sql scan ≠ .ok ts) ∧
    ((current : Int) + 50 < (sql.length : Int) →
      tokenizeWindow sql current = claimedWindow sql current) := by
  subst h
  refine ⟨rfl, ?_, ?_, ?_⟩
  · apply substrOf_appendL
    apply substrOf_appendR
    exact substrOf_refl _
  · intro ts hc
    simp [tokenize] at hc
  · intro hlt
    have hstart : (if ((current : Int) - 50) > 0 then (current : Int) - 50 else 0) =
        max 0 ((current : Int) - 50) := by
      rcases le_or_lt ((current : Int) - 50) 0 with hle | hgt
      · rw [if_neg (not_lt.mpr hle), max_eq_left hle]
      · rw [if_pos hgt, max_eq_right (le_of_lt hgt)]
    have hend : (if ((current : Int) + 50) < (sql.length : Int) then (current : Int) + 50
        else (sql.length : Int) - 1) =
        min ((sql.length : Int)) ((current : Int) + 50) := by
      rw [if_pos hlt, min_eq_right (le_of_lt hlt)]
    simp only [tokenizeWindow, claimedWindow]
    rw [hstart, hend]

/-- Witness for C9 at a concrete statement and failure offset. -/
theorem C9_tokenize_error_window_witness :
    tokenize "abc" (Except.error 1 : Except Nat (List Nat)) =
      .error ("Error tokenizing '" ++ tokenizeWindow "abc" 1 ++ "'") ∧
    SubstrOf (tokenizeWindow "abc" 1) ("Error tokenizing '" ++ tokenizeWindow "abc" 1 ++ "'") :=
  ⟨(C9_tokenize_error_window "abc" (Except.error 1 : Except Nat (List Nat)) 1 rfl).1,
   (C9_tokenize_error_window "abc" (Except.error 1 : Except Nat (List Nat)) 1 rfl).2.1⟩

/-- The suffix relation extends through a left factor. -/
theorem endsWith_appendLeft {n y : String} (x : String) (h : EndsWith n y) :
    EndsWith n (x ++ y) := by
  obtain ⟨p, hp⟩ := h
  exact ⟨x.data ++ p, by rw [data_append, hp, List.append_assoc]⟩

/-- An occurrence of `MERGE` in `ctes ++ DELETE ++ tail` cannot overlap the
`DELETE` block (no nonempty suffix of one is a prefix of the other), so it
lies wholly in `ctes` or wholly in `tail`. -/
theorem mergeData_delete_split {cs tl : List Char}
    (h : SubListAt ("MERGE".data) (cs ++ ("DELETE".data ++ tl))) :
    SubListAt "MERGE".data cs ∨ SubListAt "MERGE".data tl := by
  rcases subListAt_append h with h1 | h2 | ⟨n₁, n₂, hn, hn1, hn2, ⟨u, hu⟩, ⟨v, hv⟩⟩
  · exact Or.inl h1
  · rcases subListAt_append h2 with h3 | h4 | ⟨m₁, m₂, hm, hm1, hm2, ⟨u, hu⟩, ⟨v, hv⟩⟩
    · exact absurd ((listHasSub_iff _ _).mpr h3) (by decide)
    · exact Or.inr h4
    · exfalso
      obtain ⟨c, r, rfl⟩ : ∃ c r, m₁ = c :: r := by
        cases m₁ with
        | nil => exact absurd rfl hm1
        | cons c r => exact ⟨c, r, rfl⟩
      have hcM : c = 'M' := by
        have hM : "MERGE".data = 'M' :: ['E', 'R', 'G', 'E'] := rfl
        rw [hM] at hm
        injection hm with h1 _
        exact h1.symm
      have hcD : c ∈ "DELETE".data := by
        rw [hu]
        simp
      rw [hcM] at hcD
      exact absurd hcD (by decide)
  · exfalso
    obtain ⟨c, r, rfl⟩ : ∃ c r, n₂ = c :: r := by
      cases n₂ with
      | nil => exact absurd rfl hn2
      | cons c r => exact ⟨c, r, rfl⟩
    have hcD : c = 'D' := by
      have hshape : "DELETE".data ++ tl = 'D' :: (['E', 'L', 'E', 'T', 'E'] ++ tl) := rfl
      rw [hshape] at hv
      injection hv with h1 _
      exact h1.symm
    have hcM : c ∈ "MERGE".data := by
      rw [hn]
      simp
    rw [hcD] at hcM
    exact absurd hcM (by decide)

/-- How `delete_sql` assembles its output when USING is present. -/
theorem delete_sql_using_shape (d : DeleteParts) (returningEnd : Bool) (hU : d.using_ ≠ "") :
    delete_sql d returningEnd =
      d.ctes ++ ("MERGE" ++ (if d.tables ≠ "" then " " ++ d.tables else "") ++
        (if returningEnd then
          " " ++ d.this_ ++ (" USING " ++ d.using_) ++ pyReplace d.where_ "WHERE" "ON" ++
            d.returning ++ d.limit
         else d.returning ++ d.this_ ++ pyReplace d.where_ "WHERE" "ON" ++ d.limit) ++
        " WHEN MATCHED THEN DELETE;") := by
  simp [delete_sql, hU]

/-- How `delete_sql` assembles its output when USING is empty. -/
theorem delete_sql_empty_shape (d : DeleteParts) (returningEnd : Bool) (hU : d.using_ = "") :
    delete_sql d returningEnd = d.ctes ++ ("DELETE" ++ deleteTail d returningEnd) := by
  simp [delete_sql, deleteTail, hU, String.append_assoc]

/-- C1 counterexample: the empty-USING DELETE whose target renders as
`MERGE_LOG` produces `DELETE FROM MERGE_LOG`, which contains `MERGE`,
refuting the claim that empty-USING output never contains `MERGE`. -/
theorem C1_counterexample :
    delete_sql ⟨"MERGE_LOG", "", "", "", "", "", ""⟩ true = "DELETE FROM MERGE_LOG" ∧
    SubstrOf "MERGE" (delete_sql ⟨"MERGE_LOG", "", "", "", "", "", ""⟩ true) := by
  have h : delete_sql ⟨"MERGE_LOG", "", "", "", "", "", ""⟩ true = "DELETE FROM MERGE_LOG" := by
    decide
  refine ⟨h, ?_⟩
  rw [h]
  exact (strHas_iff _ _).mp (by decide)

/-- C1 (amended): with a non-empty USING the output contains `MERGE`, ends
with `WHEN MATCHED THEN DELETE;`, and contains the rendered WHERE clause
with every occurrence of `WHERE` replaced by `ON`; with an empty USING the
output contains `DELETE` and contains `MERGE` only when the CTE prefix or
the remaining rendered clause text brings it in itself. -/
theorem C1_delete_dichotomy (d : DeleteParts) (returningEnd : Bool) :
    (d.using_ ≠ "" →
      SubstrOf "MERGE" (delete_sql d returningEnd) ∧
      EndsWith "WHEN MATCHED THEN DELETE;" (delete_sql d returningEnd) ∧
      SubstrOf (pyReplace d.where_ "WHERE" "ON") (delete_sql d returningEnd)) ∧
    (d.using_ = "" →
      SubstrOf "DELETE" (delete_sql d returningEnd) ∧
      (SubstrOf "MERGE" (delete_sql d returningEnd) →
        SubstrOf "MERGE" d.ctes ∨ SubstrOf "MERGE" (deleteTail d returningEnd))) := by
  constructor
  · intro hU
    rw [delete_sql_using_shape d returningEnd hU]
    refine ⟨?_, ?_, ?_⟩
    · apply substrOf_appendR
      apply substrOf_appendL
      apply substrOf_appendL
      apply substrOf_appendL
      exact substrOf_refl _
    · apply endsWith_appendLeft
      apply endsWith_appendLeft
      exact ⟨[' '], by decide⟩
    · apply substrOf_appendR
      apply substrOf_appendL
      apply substrOf_appendR
      cases returningEnd with
      | true =>
        rw [if_pos rfl]
        apply substrOf_appendL
        apply substrOf_appendL
        apply substrOf_appendR
        exact substrOf_refl _
      | false =>
        rw [if_neg (by simp)]
        apply substrOf_appendL
        apply substrOf_appendR
        exact substrOf_refl _
  · intro hU0
    rw [delete_sql_empty_shape d returningEnd hU0]
    constructor
    · apply substrOf_appendR
      apply substrOf_appendL
      exact substrOf_refl _
    · intro hM
      rw [SubstrOf, data_append, data_append] at hM
      exact mergeData_delete_split hM

/-- Witness for C1: the USING branch on the spec's own example, and the
plain DELETE branch. -/
theorem C1_delete_dichotomy_witness :
    SubstrOf "MERGE" (delete_sql ⟨"t", "s", " WHERE t.id = s.id", "", "", "", ""⟩ true) ∧
    EndsWith "WHEN MATCHED THEN DELETE;"
      (delete_sql ⟨"t", "s", " WHERE t.id = s.id", "", "", "", ""⟩ true) ∧
    SubstrOf "DELETE" (delete_sql ⟨"t", "", "", "", "", "", ""⟩ true) :=
  ⟨((C1_delete_dichotomy ⟨"t", "s", " WHERE t.id = s.id", "", "", "", ""⟩ true).1
      (by decide)).1,
   ((C1_delete_dichotomy ⟨"t", "s", " WHERE t.id = s.id", "", "", "", ""⟩ true).1
      (by decide)).2.1,
   ((C1_delete_dichotomy ⟨"t", "", "", "", "", "", ""⟩ true).2 rfl).1⟩

end Remorph
